import Mathlib

/-!
A shallow embedding of the SPKI library (package `spki`): the S-expression
decoders for hashes, URI lists, public keys, private keys and signatures,
the Name / Valid algebras, and AuthCert encoding, together with theorems
settling the specification claims about them.

Conventions of the embedding:
* The Go `sexprs.Sexp` interface value is `Sexp`; the nil interface value is
  the constructor `Sexp.nilSexp`.  Atom byte strings are Lean `String`s
  (one `Char` per byte).
* Fallible Go functions return `GoResult α`: `ok`, `err` (a returned
  `error`), or `panics` (a runtime panic, e.g. index out of range, a nil
  function call, or an explicit `panic(...)` statement).
* `big.Int` values produced by `SetBytes` are `Nat` (they are always
  non-negative); a nil `*big.Int` pointer is `none` under `Option Nat`.
* `time.Time` is `GoTime`, a UTC civil timestamp; `Before`/`After` are
  chronological (lexicographic) comparison of the components.
-/

namespace Spki

/-- Go `error` values returned by the spki package: ordinary
`fmt.Errorf` messages, or the structured `HashNotFoundError`
(public_key.go, signature part). -/
inductive GoErr where
  | msg (s : String)
  | hashNotFound (algorithm : String) (digest : String)
deriving DecidableEq, Repr

/-- Result of running a Go function: a value, a returned error, or a
runtime panic (Go panics unwind past the caller, which `bind` mirrors by
propagation). -/
inductive GoResult (α : Type) where
  | ok (a : α)
  | err (e : GoErr)
  | panics (msg : String)
deriving DecidableEq, Repr

def GoResult.bind {α β : Type} : GoResult α → (α → GoResult β) → GoResult β
  | .ok a, f => f a
  | .err e, _ => .err e
  | .panics m, _ => .panics m

instance : Monad GoResult where
  pure := GoResult.ok
  bind := GoResult.bind

/-- `sexprs.Sexp` (external library, specified at its interface): an atom
holding a byte string, a list, or the nil interface value. -/
inductive Sexp where
  | atom (value : String)
  | list (elements : List Sexp)
  | nilSexp
deriving Repr

/-- Go `l[i]` on a slice: the element, or an index-out-of-range panic. -/
def listIdx (l : List Sexp) (i : Nat) : GoResult Sexp :=
  match l.get? i with
  | some x => .ok x
  | none => .panics "index out of range"

/-- `sexprs.Atom.Equal` applied to an arbitrary `Sexp` (external library,
structural equality): true when the argument is an atom with the same
byte string.  Used for `hashAtom.Equal(s)`, `urisAtom.Equal(s)`, etc. -/
def atomEqual (v : String) (s : Sexp) : Bool :=
  match s with
  | .atom w => v == w
  | _ => false

/-- `big.NewInt(0).SetBytes(raw)`: the unsigned big-endian integer held
in a byte string. -/
def setBytes (s : String) : Nat :=
  s.toList.foldl (fun acc c => acc * 256 + c.toNat) 0

/-- `validHash` (hash.go): membership in `KnownHashes`, which `init()`
populates with sha256, sha224, sha512, sha384. -/
def validHash (b : String) : Bool :=
  b == "sha256" || b == "sha224" || b == "sha512" || b == "sha384"

/-- Modelled from the spec: the output sizes of the digest algorithms in
the registry (§4.1, §3 "Invariant: `digest` length matches the named
output size of the named algorithm"); the constructors themselves (crypto/sha256,
crypto/sha512) are external collaborators outside the core. -/
def algOutputSize (b : String) : Option Nat :=
  if b == "sha224" then some 28
  else if b == "sha256" then some 32
  else if b == "sha384" then some 48
  else if b == "sha512" then some 64
  else none

/-- `Hash` (hash.go): an algorithm name, the digest bytes, and optional
URIs (`nil` slice modelled as `none`). -/
structure Hash where
  Algorithm : String
  Hash : String
  URIs : Option (List String)
deriving DecidableEq, Repr

/-- Modelled from the spec: `url.Parse` is an external collaborator
("URI parsing" is OUT OF SCOPE, §1); modelled as always succeeding with
the raw string, which is its behaviour on every URI exercised here. -/
def urlParse (s : String) : GoResult String :=
  .ok s

/-- The element loop of `EvalURIs` (spki.go): each element after the
`uris` atom must be an atom and is parsed as a URL; the first non-atom
yields the "URI expected" error. -/
def evalURIElems : List Sexp → GoResult (List String)
  | [] => .ok []
  | .atom u :: rest => do
      let v ← urlParse u
      let vs ← evalURIElems rest
      .ok (v :: vs)
  | _ :: _ => .err (.msg "URI expected")

/-- `EvalURIs` (spki.go).  NOTE, kept faithful to the source: when the
argument is a list that is not of the form `(uris ...)` with at least one
element after the atom, control falls out of the `switch` and reaches
`panic` with the message `Cant reach here` (sic). -/
def EvalURIs (s : Sexp) : GoResult (List String) :=
  match s with
  | .list l =>
      -- if len(s) > 1 && urisAtom.Equal(s[0])  (short-circuit: s[0] safe)
      match l with
      | a0 :: rest =>
          if rest.length > 0 && atomEqual "uris" a0 then
            evalURIElems rest
          else
            .panics "Cant reach here"
      | [] => .panics "Cant reach here"
  | _ => .err (.msg "S-expression not a list")

/-- `EvalHash` (hash.go): a list of 3 or 4 elements `(hash ALG DIGEST
[URIS])` with a registered algorithm; the digest atom is taken as-is.
The optional fourth element goes through `EvalURIs`. -/
def EvalHash (s : Sexp) : GoResult Hash :=
  match s with
  | .list (a0 :: a1 :: a2 :: rest) =>
      -- len(s) >= 3 && len(s) < 5 && hashAtom.Equal(s[0])
      if rest.length < 2 && atomEqual "hash" a0 then
        match a1, a2 with
        | .atom algorithm, .atom value =>
            if validHash algorithm then
              match rest with
              | [] => .ok ⟨algorithm, value, none⟩
              | u :: _ => do
                  let us ← EvalURIs u
                  .ok ⟨algorithm, value, some us⟩
            else .err (.msg "Invalid hash expression")
        | _, _ => .err (.msg "Invalid hash expression")
      else .err (.msg "Invalid hash expression")
  | _ => .err (.msg "Invalid hash expression")

/-- The elliptic curves selectable by the key decoders
(`elliptic.P256()` / `elliptic.P384()`). -/
inductive EllipticCurve where
  | p256
  | p384
deriving DecidableEq, Repr

/-- `PublicKey` (public_key.go): the embedded `ecdsa.PublicKey` fields;
`Curve`/`X`/`Y` are nil pointers/interfaces in the zero value, hence
`Option`.  `hashes` is the embedded `HashKey` memo cache (its type is
declared outside the sources in view; no claim inspects it, and decoding
leaves it at its zero value, the empty sequence). -/
structure PublicKey where
  Curve : Option EllipticCurve
  X : Option Nat
  Y : Option Nat
  hashes : List Hash
deriving DecidableEq, Repr

/-- `PrivateKey` (private_key.go): the embedded `ecdsa.PrivateKey`
fields, i.e. the public point plus the secret scalar `D`. -/
structure PrivateKey where
  Curve : Option EllipticCurve
  X : Option Nat
  Y : Option Nat
  D : Option Nat
  hashes : List Hash
deriving DecidableEq, Repr

/-- `evalNamedBigInt` (spki.go): a term `(NAME OCTET-STRING)` decoded to
the unsigned big-endian integer of the octet string. -/
def evalNamedBigInt (name : String) (s : Sexp) : GoResult Nat :=
  match s with
  -- l, ok := s.(sexprs.List); if !ok || len(l) != 2 { error }
  | .list [first, value] =>
      match first with
      | .atom fv =>
          if fv != name then .err (.msg ("Expected term name " ++ name))
          else
            match value with
            | .atom raw => .ok (setBytes raw)
            | _ => .err (.msg ("Value in (" ++ name ++ " VALUE) must be an atom"))
      | _ => .err (.msg ("Expected term name " ++ name))
  | _ => .err (.msg ("Named big integer term must be a list (" ++ name ++ " OCTET-STRING)"))

/-- `evalCurve` (public_key.go).  Kept faithful to the source: the
accepted curve-name atoms are `p256` and `p512` (not `p384`), and the
element accesses `ll[0]`, `ll[1]` are unguarded, so lists of length 0 or
1 panic. -/
def evalCurve (s : Sexp) : GoResult String :=
  match s with
  | .list ll => do
      let c0 ← listIdx ll 0
      match c0 with
      | .atom v =>
          if v != "curve" then .err (.msg "Curve must start with curve")
          else do
            let c1 ← listIdx ll 1
            match c1 with
            | .atom w =>
                if w != "p256" && w != "p512" then
                  .err (.msg "Curve must be either p256 or p512")
                else .ok w
            | _ => .err (.msg "Curve must be either p256 or p512")
      | _ => .err (.msg "Curve must start with curve")
  | _ => .err (.msg "Curve must be a list")

/-- `evalECDSA256PublicKeyTerms` (public_key.go): decodes the curve name
and the `x`, `y` terms of a 4-element `ecdsa-sha2` list; performs no
validation of the point beyond structure. -/
def evalECDSA256PublicKeyTerms (l : List Sexp) : GoResult PublicKey := do
  let t1 ← listIdx l 1
  let curve ← evalCurve t1
  let c : GoResult EllipticCurve :=
    if curve == "p256" then .ok .p256
    else if curve == "p384" then .ok .p384
    else .err (.msg "Curve must be either p256 or p384")
  let c ← c
  let t2 ← listIdx l 2
  let x ← evalNamedBigInt "x" t2
  let t3 ← listIdx l 3
  let y ← evalNamedBigInt "y" t3
  .ok ⟨some c, some x, some y, []⟩

/-- `evalECDSAPublicKey` (public_key.go).  `ecdsa256Atom` and
`ecdsa384Atom` are both the atom `ecdsa-sha2` (hash.go), so the first
branch always wins and the `panic("p384 not yet supported")` branch is
dead. -/
def evalECDSAPublicKey (s : Sexp) : GoResult PublicKey :=
  match s with
  | .list l =>
      if l.length != 4 then .err (.msg "ECDSA key must have 4 elements")
      else do
        let a0 ← listIdx l 0
        if atomEqual "ecdsa-sha2" a0 then evalECDSA256PublicKeyTerms l
        else if atomEqual "ecdsa-sha2" a0 then .panics "p384 not yet supported"
        else .err (.msg "ECDSA key S-expression must start with ecdsa-sha2")
  | _ => .err (.msg "ECDSA key S-expression must be a list")

/-- `EvalPublicKey` (public_key.go).  Kept faithful to the source: the
`l[0]` access happens before the length check, so the empty list
panics. -/
def EvalPublicKey (s : Sexp) : GoResult PublicKey :=
  match s with
  | .list l => do
      let a0 ← listIdx l 0
      if !(atomEqual "public-key" a0) then
        .err (.msg "Key S-expression must start with public-key")
      else if l.length != 2 then
        .err (.msg "Key S-expression must have two elements")
      else do
        let inner ← listIdx l 1
        evalECDSAPublicKey inner
  | _ => .err (.msg "Key S-expression must be a list")

/-- `evalECDSASHA2PrivateKeyTerms` (private_key.go): curve plus `x`,
`y`, `d` terms; no validation that `(x, y)` lies on the curve or that
`d` generates it. -/
def evalECDSASHA2PrivateKeyTerms (l : List Sexp) : GoResult PrivateKey := do
  let t1 ← listIdx l 1
  let curve ← evalCurve t1
  let c : GoResult EllipticCurve :=
    if curve == "p256" then .ok .p256
    else if curve == "p384" then .ok .p384
    else .err (.msg "Curve must be either p256 or p384")
  let c ← c
  let t2 ← listIdx l 2
  let x ← evalNamedBigInt "x" t2
  let t3 ← listIdx l 3
  let y ← evalNamedBigInt "y" t3
  let t4 ← listIdx l 4
  let d ← evalNamedBigInt "d" t4
  .ok ⟨some c, some x, some y, some d, []⟩

/-- `evalECDSAPrivateKey` (private_key.go): 5-element `ecdsa-sha2` list;
as with the public key, the `ecdsa384Atom` branch (which would fall
through to the `Cant reach here` panic) is dead because both atoms hold
`ecdsa-sha2`. -/
def evalECDSAPrivateKey (s : Sexp) : GoResult PrivateKey :=
  match s with
  | .list l =>
      if l.length != 5 then .err (.msg "ECDSA key must have 5 elements")
      else do
        let a0 ← listIdx l 0
        if atomEqual "ecdsa-sha2" a0 then evalECDSASHA2PrivateKeyTerms l
        else if atomEqual "ecdsa-sha2" a0 then .panics "Cant reach here"
        else .err (.msg "ECDSA key S-expression must start with ecdsa-sha2")
  | _ => .err (.msg "ECDSA key S-expression must be a list")

/-- `EvalPrivateKey` (private_key.go); like `EvalPublicKey`, the `l[0]`
access precedes the length check. -/
def EvalPrivateKey (s : Sexp) : GoResult PrivateKey :=
  match s with
  | .list l => do
      let a0 ← listIdx l 0
      if !(atomEqual "private-key" a0) then
        .err (.msg "Key S-expression must start with private-key")
      else if l.length != 2 then
        .err (.msg "Key S-expression must have two elements")
      else do
        let inner ← listIdx l 1
        evalECDSAPrivateKey inner
  | _ => .err (.msg "Key S-expression must be a list")

/-- `Signature` (public_key.go, signature part): nil pointers in the
zero value modelled as `none`; decoding fills every field on success. -/
structure Signature where
  Hash : Hash
  Principal : Option PublicKey
  R : Option Nat
  S : Option Nat
deriving DecidableEq, Repr

/-- `EvalSignature` (public_key.go, signature part).  Two spots kept
faithful to the source rather than to its own doc comment: a nil
`lookupFunc` is invoked anyway (a nil-function-call panic, not a
`HashNotFoundError`), and the `S` component is read with
`evalNamedBigInt("s", sigVal[1])` — the same sub-term `sigVal[1]` that
was just used for `R` — instead of `sigVal[2]`. -/
def EvalSignature (s : Sexp) (lookupFunc : Option (Hash → Option PublicKey)) :
    GoResult Signature :=
  match s with
  | .list l =>
      -- if len(l) != 4 || !signatureAtom.Equal(l[0])  (short-circuit)
      if l.length != 4 then
        .err (.msg "Signature S-expression must be of the form (signature (hash sha256 |...|) PRINCIPAL (ecdsa |...| |...|))")
      else do
        let a0 ← listIdx l 0
        if !(atomEqual "signature" a0) then
          .err (.msg "Signature S-expression must be of the form (signature (hash sha256 |...|) PRINCIPAL (ecdsa |...| |...|))")
        else do
          let h1 ← listIdx l 1
          let hash ← EvalHash h1
          let p ← listIdx l 2
          match p with
          | .list pl => do
              let pf ← listIdx pl 0
              match pf with
              | .atom pfv => do
                  let principal ←
                    (if pfv == "hash" then do
                      let phash ← EvalHash (.list pl)
                      match lookupFunc with
                      | none => .panics "invalid memory address or nil pointer dereference"
                      | some f =>
                          match f phash with
                          | none => .err (.hashNotFound phash.Algorithm phash.Hash)
                          | some k => .ok k
                    else if pfv == "public-key" then EvalPublicKey (.list pl)
                    else .err (.msg "Principal must be either a hash or a public key") :
                      GoResult PublicKey)
                  let s3 ← listIdx l 3
                  match s3 with
                  | .list sv =>
                      if sv.length != 3 then
                        .err (.msg "Signature value must be of the form (ecdsa-sha2 (r |...|) (s |...|))")
                      else do
                        let sid ← listIdx sv 0
                        if !(atomEqual "ecdsa-sha2" sid) then
                          .err (.msg "Signature ID must equal ecdsa-sha2")
                        else do
                          let rterm ← listIdx sv 1
                          let r ← evalNamedBigInt "r" rterm
                          -- source reads sigVal[1] again for S (not sigVal[2])
                          let sterm ← listIdx sv 1
                          let svalue ← evalNamedBigInt "s" sterm
                          .ok ⟨hash, some principal, some r, some svalue⟩
                  | _ => .err (.msg "Signature value must be of the form (ecdsa-sha2 (r |...|) (s |...|))")
              | _ => .err (.msg "Principal must be either a hash or a public key")
          | _ => .err (.msg "Principal must be either a hash or a public key")
  | _ => .err (.msg "Signature S-expression must be a list")

/-- `time.Time` (standard library, external): an instant, viewed through
its UTC civil components, which is all the spki code observes
(`Before`, `After`, and `Format`). -/
structure GoTime where
  year : Nat
  month : Nat
  day : Nat
  hour : Nat
  minute : Nat
  second : Nat
deriving DecidableEq, Repr

/-- `time.Time.Before`: chronological comparison, i.e. lexicographic on
the civil components of the two UTC instants. -/
def GoTime.before (a b : GoTime) : Bool :=
  decide (a.year < b.year ∨ (a.year = b.year ∧
    (a.month < b.month ∨ (a.month = b.month ∧
      (a.day < b.day ∨ (a.day = b.day ∧
        (a.hour < b.hour ∨ (a.hour = b.hour ∧
          (a.minute < b.minute ∨ (a.minute = b.minute ∧
            a.second < b.second))))))))))

/-- `time.Time.After`: `t.After(u)` holds exactly when `u.Before(t)`. -/
def GoTime.after (a b : GoTime) : Bool :=
  GoTime.before b a

/-- A zero-padded 2-digit decimal rendering, as the Go `Format` function produces
for the two-digit layout chunks (`01`, `02`, `15`, `04`, `05`). -/
def pad2 (n : Nat) : List Char :=
  if n < 10 then '0' :: (Nat.repr n).toList else (Nat.repr n).toList

/-- A zero-padded 4-digit year, as the Go `Format` function produces for the
layout chunk `2006`. -/
def pad4 (n : Nat) : List Char :=
  if n < 10 then '0' :: '0' :: '0' :: (Nat.repr n).toList
  else if n < 100 then '0' :: '0' :: (Nat.repr n).toList
  else if n < 1000 then '0' :: (Nat.repr n).toList
  else (Nat.repr n).toList

/-- `time.Time.Format` (standard library, external), restricted to the
layout characters that can occur in the only layout string of this package,
`V0DateFmt`.  Mirrors the `nextStdChunk` scanner of Go: `2006` is the
4-digit year; a lone `2` the unpadded day; `15` the 24-hour hour; a
lone `1` the unpadded month; `01` `02` `03` `04` `05` `06` the padded
month, day, 12-hour hour, minute, second and 2-digit year; `_2006` and
`_2` the underscore-padded forms; `3` `4` `5` the unpadded 12-hour
hour, minute and second; every other character — including a `0` not
followed by `1`–`6`, such as the final `00` of `V0DateFmt` — is
literal text. -/
def formatChunks (t : GoTime) : List Char → List Char
  | [] => []
  | '_' :: '2' :: '0' :: '0' :: '6' :: rest => pad4 t.year ++ formatChunks t rest
  | '_' :: '2' :: rest =>
      (if t.day < 10 then [' '] else []) ++ (Nat.repr t.day).toList ++ formatChunks t rest
  | '2' :: '0' :: '0' :: '6' :: rest => pad4 t.year ++ formatChunks t rest
  | '2' :: rest => (Nat.repr t.day).toList ++ formatChunks t rest
  | '1' :: '5' :: rest => pad2 t.hour ++ formatChunks t rest
  | '1' :: rest => (Nat.repr t.month).toList ++ formatChunks t rest
  | '0' :: '1' :: rest => pad2 t.month ++ formatChunks t rest
  | '0' :: '2' :: rest => pad2 t.day ++ formatChunks t rest
  | '0' :: '3' :: rest =>
      pad2 (if t.hour % 12 == 0 then 12 else t.hour % 12) ++ formatChunks t rest
  | '0' :: '4' :: rest => pad2 t.minute ++ formatChunks t rest
  | '0' :: '5' :: rest => pad2 t.second ++ formatChunks t rest
  | '0' :: '6' :: rest => pad2 (t.year % 100) ++ formatChunks t rest
  | '3' :: rest =>
      (Nat.repr (if t.hour % 12 == 0 then 12 else t.hour % 12)).toList ++ formatChunks t rest
  | '4' :: rest => (Nat.repr t.minute).toList ++ formatChunks t rest
  | '5' :: rest => (Nat.repr t.second).toList ++ formatChunks t rest
  | c :: rest => c :: formatChunks t rest

/-- `t.Format(layout)`. -/
def goFormat (t : GoTime) (layout : String) : String :=
  String.mk (formatChunks t layout.toList)

/-- `V0DateFmt` (validity part of name.go): the SPKI v0 non-ISO date
layout string.  NOTE: the final chunk is `00`, which is literal text in
a Go layout (the seconds chunk would be `05`). -/
def V0DateFmt : String := "2006-01-02_15:04:00"

/-- `Valid` (validity part of name.go): a nil `NotBefore` is an
infinitely early start, a nil `NotAfter` an infinitely late end. -/
structure Valid where
  NotBefore : Option GoTime
  NotAfter : Option GoTime
deriving DecidableEq, Repr

/-- `Valid.Intersect` (validity part of name.go): the later start and
the earlier end; if both bounds are present and inverted, the result is
empty (`false` with a cleared interval). -/
def Valid.Intersect (v v2 : Valid) : Bool × Valid :=
  -- i.NotBefore = max(v.NotBefore, v2.NotBefore)
  let nb : Option GoTime :=
    match v.NotBefore, v2.NotBefore with
    | none, none => none
    | none, some b => some b
    | some a, none => some a
    | some a, some b => if a.before b then some b else some a
  -- i.NotAfter = min(v.NotAfter, v2.NotAfter)
  let na : Option GoTime :=
    match v.NotAfter, v2.NotAfter with
    | none, none => none
    | none, some b => some b
    | some a, none => some a
    | some a, some b => if a.after b then some b else some a
  -- if NotBefore comes after NotAfter, the validity interval is empty
  match nb, na with
  | some lo, some hi =>
      if lo.after hi then (false, ⟨none, none⟩) else (true, ⟨some lo, some hi⟩)
  | _, _ => (true, ⟨nb, na⟩)

/-- `Valid.Sexp` (validity part of name.go): nil when both bounds are
absent; otherwise `(valid NOT-BEFORE NOT-AFTER)` where an absent bound
leaves a nil element in the list, and each present bound is rendered
with `Format(V0DateFmt)`. -/
def Valid.Sexp (v : Valid) : Spki.Sexp :=
  let notBefore : Spki.Sexp :=
    match v.NotBefore with
    | some t => .list [.atom "not-before", .atom (goFormat t V0DateFmt)]
    | none => .nilSexp
  let notAfter : Spki.Sexp :=
    match v.NotAfter with
    | some t => .list [.atom "not-after", .atom (goFormat t V0DateFmt)]
    | none => .nilSexp
  match notBefore, notAfter with
  | .nilSexp, .nilSexp => .nilSexp
  | _, _ => .list [.atom "valid", notBefore, notAfter]

/-- `Name` (name.go), generic over the `Key` interface type of its
principal (a nil interface is `none`). -/
structure Name (Key : Type) where
  Principal : Option Key
  Names : List String
deriving DecidableEq, Repr

/-- The element-wise loop of `Name.IsPrefix`: compare the two name
sequences only over the overlap up to the shorter length. -/
def namesOverlapMatch : List String → List String → Bool
  | a :: as, b :: bs => a == b && namesOverlapMatch as bs
  | _, _ => true

/-- `Name.IsPrefix` (name.go), with the `Key.Equal` interface dispatch
abstracted as `keyEqual` (its second argument is the possibly-nil
interface value of the other principal). -/
def Name.IsPrefix {Key : Type} (keyEqual : Key → Option Key → Bool)
    (n n2 : Name Key) : Bool :=
  match n.Principal with
  | some k =>
      if !(keyEqual k n2.Principal) then false
      else namesOverlapMatch n.Names n2.Names
  | none => namesOverlapMatch n.Names n2.Names

/-- `Name.Sexp` (name.go), with the `Key.Sexp` interface dispatch of
the principal abstracted as `keySexp`. -/
def Name.Sexp {Key : Type} (keySexp : Key → Spki.Sexp) (n : Name Key) : Spki.Sexp :=
  let issuerSexp : Spki.Sexp :=
    match n.Principal with
    | some k => keySexp k
    | none => .atom "Self"
  if n.Names.isEmpty then issuerSexp
  else .list ([.atom "name", issuerSexp] ++ n.Names.map .atom)

/-- `AuthCert` (certificate source file): `Expr` is the
originally-parsed expression (`nilSexp` when the certificate was built
programmatically), `Subject` is the `Subject` capability modelled by
the subject expression it produces, and `valid` is the optional
validity pointer. -/
structure AuthCert (Key : Type) where
  Expr : Sexp
  Issuer : Name Key
  Subject : Sexp
  Delegate : Bool
  valid : Option Valid
  Tag : Sexp

/-- `AuthCert.Sexp`: the original expression verbatim when present,
otherwise the synthesized
`(cert (issuer ISSUER) (subject SUBJECT) [(delegate)] TAG [VALID])`;
the delegate term is appended only when `Delegate` is set, and the
valid term only when `vs` — `a.Valid.Sexp()` for a non-nil `a.Valid`,
nil otherwise — is non-nil. -/
def AuthCert.Sexp {Key : Type} (keySexp : Key → Spki.Sexp) (a : AuthCert Key) : Spki.Sexp :=
  match a.Expr with
  | .nilSexp =>
      let ds : Spki.Sexp := if a.Delegate then .list [.atom "delegate"] else .nilSexp
      let vs : Spki.Sexp :=
        match a.valid with
        | some v => v.Sexp
        | none => .nilSexp
      let s : List Spki.Sexp :=
        [.atom "cert",
         .list [.atom "issuer", a.Issuer.Sexp keySexp],
         .list [.atom "subject", a.Subject]]
      let s := match ds with
        | .nilSexp => s
        | _ => s ++ [ds]
      let s := s ++ [a.Tag]
      let s := match vs with
        | .nilSexp => s
        | _ => s ++ [vs]
      .list s
  | e => e

/-- The emptiness test `Valid.Intersect` applies to its own result: a
`Valid` passes when it does not have both bounds present with
`NotBefore` after `NotAfter`. -/
def Valid.nonEmptyBounds (v : Valid) : Bool :=
  match v.NotBefore, v.NotAfter with
  | some lo, some hi => !(lo.after hi)
  | _, _ => true

/-- A well-formed signature S-expression per the documented grammar:
principal embedded as a public key, `r` and `s` each in their own named
term. -/
def wellFormedSigExpr : Sexp :=
  .list [.atom "signature",
         .list [.atom "hash", .atom "sha256", .atom "D"],
         .list [.atom "public-key",
                .list [.atom "ecdsa-sha2",
                       .list [.atom "curve", .atom "p256"],
                       .list [.atom "x", .atom "\x01"],
                       .list [.atom "y", .atom "\x02"]]],
         .list [.atom "ecdsa-sha2",
                .list [.atom "r", .atom "\x03"],
                .list [.atom "s", .atom "\x04"]]]

/-- A well-formed signature S-expression whose principal is a hash
expression, to be resolved through the lookup function. -/
def hashPrincipalSigExpr : Sexp :=
  .list [.atom "signature",
         .list [.atom "hash", .atom "sha256", .atom "D"],
         .list [.atom "hash", .atom "sha256", .atom "K"],
         .list [.atom "ecdsa-sha2",
                .list [.atom "r", .atom "\x03"],
                .list [.atom "s", .atom "\x04"]]]

/-- A structurally well-formed public-key S-expression with curve name
`NAME` and 1-byte coordinate atoms. -/
def pubKeyExprNamed (name : String) : Sexp :=
  .list [.atom "public-key",
         .list [.atom "ecdsa-sha2",
                .list [.atom "curve", .atom name],
                .list [.atom "x", .atom "\x01"],
                .list [.atom "y", .atom "\x02"]]]

/-- A structurally well-formed p256 public-key S-expression with
arbitrary coordinate byte strings. -/
def pubKeyExprP256 (xb yb : String) : Sexp :=
  .list [.atom "public-key",
         .list [.atom "ecdsa-sha2",
                .list [.atom "curve", .atom "p256"],
                .list [.atom "x", .atom xb],
                .list [.atom "y", .atom yb]]]

/-- A structurally well-formed p256 private-key S-expression with
arbitrary coordinate and scalar byte strings. -/
def privKeyExprP256 (xb yb db : String) : Sexp :=
  .list [.atom "private-key",
         .list [.atom "ecdsa-sha2",
                .list [.atom "curve", .atom "p256"],
                .list [.atom "x", .atom xb],
                .list [.atom "y", .atom yb],
                .list [.atom "d", .atom db]]]

/-- The public key the lookup function returns in the signature
resolution tests. -/
def lookedUpKey : PublicKey :=
  ⟨some .p256, some 1, some 2, []⟩

/-!  Theorems settling the claims. -/

/-- C1: for a well-formed signature S-expression
`(signature HASH PRINCIPAL (ecdsa-sha2 (r R) (s S)))`, `EvalSignature`
is claimed to return a `Signature` with `R` and `S` each decoded from
its own named term.  The source instead evaluates
`evalNamedBigInt("s", sigVal[1])` — the `r` term — so decoding a
well-formed signature fails with the term-name error, while the same
call on the actual `s` term would have succeeded. -/
theorem evalSignature_s_read_from_r_term :
    EvalSignature wellFormedSigExpr none =
      .err (.msg "Expected term name s") ∧
    evalNamedBigInt "s" (.list [.atom "s", .atom "\x04"]) = .ok 4 ∧
    evalNamedBigInt "s" (.list [.atom "r", .atom "\x03"]) =
      .err (.msg "Expected term name s") := by
  refine ⟨rfl, rfl, rfl⟩

/-- C2: the spec accepts curve names p256 and p384 and rejects all
others, so a well-formed p384 key must decode to a P-384 key.  The
source `evalCurve` instead admits the names p256 and p512: a p384 key
is rejected by `evalCurve`, and a p512 key then dies in the curve
switch of `evalECDSA256PublicKeyTerms`; only p256 decodes. -/
theorem evalPublicKey_rejects_p384 :
    EvalPublicKey (pubKeyExprNamed "p384") =
      .err (.msg "Curve must be either p256 or p512") ∧
    EvalPublicKey (pubKeyExprNamed "p512") =
      .err (.msg "Curve must be either p256 or p384") ∧
    EvalPublicKey (pubKeyExprNamed "p256") =
      .ok ⟨some .p256, some 1, some 2, []⟩ := by
  refine ⟨rfl, rfl, rfl⟩

/-- C3: the decode operations are claimed never to panic.  In the
source, `EvalURIs` falls into `panic("Cant reach here")` on any list
not of the `(uris ...)` form, `EvalHash` reaches that panic through its
optional fourth element, and `EvalPublicKey` / `EvalPrivateKey` index
`l[0]` before checking the length, panicking on the empty list. -/
theorem decode_operations_can_panic :
    EvalURIs (.list [.atom "x"]) = .panics "Cant reach here" ∧
    EvalHash (.list [.atom "hash", .atom "sha256", .atom "D",
                     .list [.atom "z"]]) = .panics "Cant reach here" ∧
    EvalPublicKey (.list []) = .panics "index out of range" ∧
    EvalPrivateKey (.list []) = .panics "index out of range" := by
  refine ⟨rfl, rfl, rfl, rfl⟩

/-- C4: for a well-formed signature whose principal is a hash
expression, the claim is: nil lookup ⇒ `HashNotFoundError`; lookup
returning none ⇒ `HashNotFoundError`; lookup returning a key ⇒ success
with that key as principal.  The source satisfies only the middle case:
a nil `lookupFunc` is called anyway (nil-function-call panic), and when
the lookup returns a key the decode still fails because `s` is read
from the `r` term. -/
theorem evalSignature_hash_principal_resolution :
    EvalSignature hashPrincipalSigExpr none =
      .panics "invalid memory address or nil pointer dereference" ∧
    EvalSignature hashPrincipalSigExpr (some fun _ => none) =
      .err (.hashNotFound "sha256" "K") ∧
    EvalSignature hashPrincipalSigExpr (some fun _ => some lookedUpKey) =
      .err (.msg "Expected term name s") := by
  refine ⟨rfl, rfl, rfl⟩

/-- C8: `Valid.Sexp` is claimed to render a present bound in the format
`YYYY-MM-DD_HH:MM:SS`, with the last two characters the actual seconds.
The layout string `V0DateFmt` ends in the literal chunk `00` (the
seconds chunk of a Go layout would be `05`), so a bound at 23:59:59
renders with seconds `00`. -/
theorem valid_sexp_literal_zero_seconds :
    Valid.Sexp ⟨some ⟨2014, 1, 1, 0, 0, 0⟩, some ⟨2014, 12, 31, 23, 59, 59⟩⟩ =
      .list [.atom "valid",
             .list [.atom "not-before", .atom "2014-01-01_00:00:00"],
             .list [.atom "not-after", .atom "2014-12-31_23:59:00"]] ∧
    goFormat ⟨2014, 12, 31, 23, 59, 59⟩ V0DateFmt ≠ "2014-12-31_23:59:59" := by
  constructor
  · rfl
  · decide

/-- C9 counterexample: the claim says a hash expression whose digest
atom does not have the output length of the named algorithm fails to
decode.  `EvalHash` checks only the structure and the algorithm name: a
1-byte sha256 digest decodes successfully although sha256 produces 32
bytes. -/
theorem evalHash_accepts_short_digest :
    EvalHash (.list [.atom "hash", .atom "sha256", .atom "\x01"]) =
      .ok ⟨"sha256", "\x01", none⟩ ∧
    algOutputSize "sha256" = some 32 ∧
    ("\x01" : String).length = 1 := by
  refine ⟨rfl, rfl, rfl⟩

/-- C9 (amended): a successful `EvalHash` guarantees that the algorithm
atom names a registered algorithm, but performs no validation of the
digest length: a 3-element hash expression with a registered algorithm
and a digest atom of any length decodes to exactly that algorithm and
digest. -/
theorem evalHash_no_digest_length_check :
    ∀ (alg digest : String), validHash alg = true →
      EvalHash (.list [.atom "hash", .atom alg, .atom digest]) =
        .ok ⟨alg, digest, none⟩ := by
  intro alg digest h
  simp [EvalHash, atomEqual, h]

/-- C9 witness: the amended theorem applied at a registered algorithm
with a digest of the wrong length. -/
theorem evalHash_no_digest_length_check_witness :
    validHash "sha256" = true ∧
    EvalHash (.list [.atom "hash", .atom "sha256", .atom "\x01"]) =
      .ok ⟨"sha256", "\x01", none⟩ :=
  ⟨by decide, evalHash_no_digest_length_check "sha256" "\x01" (by decide)⟩

/-- C10: the key decoders perform no elliptic-curve point validation:
for every choice of coordinate byte strings (and private scalar), a
structurally well-formed key expression with the accepted curve name
decodes successfully, storing the unsigned big-endian integers of the
atoms, with no relation required between x, y, d and the curve. -/
theorem keyDecode_no_point_validation :
    ∀ (xb yb db : String),
      EvalPublicKey (pubKeyExprP256 xb yb) =
        .ok ⟨some .p256, some (setBytes xb), some (setBytes yb), []⟩ ∧
      EvalPrivateKey (privKeyExprP256 xb yb db) =
        .ok ⟨some .p256, some (setBytes xb), some (setBytes yb),
             some (setBytes db), []⟩ := by
  intro xb yb db
  exact ⟨rfl, rfl⟩

theorem GoTime.before_asymm {a b : GoTime} (h : a.before b = true) :
    b.before a = false := by
  cases a; cases b
  simp only [GoTime.before, decide_eq_true_eq] at h
  simp only [GoTime.before, decide_eq_false_iff_not]
  omega

theorem GoTime.before_conn {a b : GoTime} (h1 : a.before b = false)
    (h2 : b.before a = false) : a = b := by
  cases a; cases b
  simp only [GoTime.before, decide_eq_false_iff_not] at h1 h2
  simp only [GoTime.mk.injEq]
  omega

theorem pickLater_comm (a b : GoTime) :
    (if a.before b then some b else some a) =
      (if b.before a then some a else some b) := by
  cases h1 : a.before b with
  | false =>
      cases h2 : b.before a with
      | false => simp [GoTime.before_conn h1 h2]
      | true => simp
  | true => simp [GoTime.before_asymm h1]

theorem pickEarlier_comm (a b : GoTime) :
    (if a.after b then some b else some a) =
      (if b.after a then some a else some b) := by
  unfold GoTime.after
  cases h1 : b.before a with
  | false =>
      cases h2 : a.before b with
      | false => simp [GoTime.before_conn h2 h1]
      | true => simp
  | true => simp [GoTime.before_asymm h1]

theorem valid_intersect_comm (v v2 : Valid) :
    Valid.Intersect v v2 = Valid.Intersect v2 v := by
  obtain ⟨nb1, na1⟩ := v
  obtain ⟨nb2, na2⟩ := v2
  cases nb1 <;> cases nb2 <;> cases na1 <;> cases na2 <;>
    simp only [Valid.Intersect] <;>
    (try rw [pickLater_comm]) <;> (try rw [pickEarlier_comm])

theorem valid_intersect_self (a : Valid) (h : a.nonEmptyBounds = true) :
    Valid.Intersect a a = (true, a) := by
  obtain ⟨nb, na⟩ := a
  cases nb with
  | none =>
      cases na with
      | none => rfl
      | some hi => simp [Valid.Intersect]
  | some lo =>
      cases na with
      | none => simp [Valid.Intersect]
      | some hi =>
          simp only [Valid.nonEmptyBounds, Bool.not_eq_true',
            Bool.not_eq_eq_eq_not] at h
          simp [Valid.Intersect, h]

/-- C6 counterexample: the claim says `a.Intersect(a)` returns
`nonEmpty = true` with `a` itself for every interval `a`; for an
inverted interval (whose `NotBefore` lies after its `NotAfter`) the
emptiness test fires and `(false, cleared)` is returned instead. -/
theorem valid_intersect_self_inverted :
    Valid.Intersect ⟨some ⟨2015, 1, 1, 0, 0, 0⟩, some ⟨2014, 1, 1, 0, 0, 0⟩⟩
        ⟨some ⟨2015, 1, 1, 0, 0, 0⟩, some ⟨2014, 1, 1, 0, 0, 0⟩⟩ =
      (false, ⟨none, none⟩) ∧
    (false, (⟨none, none⟩ : Valid)) ≠
      (true, (⟨some ⟨2015, 1, 1, 0, 0, 0⟩, some ⟨2014, 1, 1, 0, 0, 0⟩⟩ : Valid)) := by
  refine ⟨by decide, by decide⟩

/-- C6 (amended): `Valid.Intersect` is commutative (the bounds are
compared and returned as values), and intersecting an interval with
itself returns `(true, itself)` for every interval that is not
inverted, i.e. that passes the emptiness test the source applies to the
intersection result. -/
theorem valid_intersect_comm_and_self :
    (∀ v v2 : Valid, Valid.Intersect v v2 = Valid.Intersect v2 v) ∧
    (∀ a : Valid, a.nonEmptyBounds = true → Valid.Intersect a a = (true, a)) :=
  ⟨valid_intersect_comm, valid_intersect_self⟩

/-- C6 witness: commutativity and self-intersection evaluated on the
validity interval used by the package test (2014-01-01 00:00:00 to
2014-12-31 23:59:59). -/
theorem valid_intersect_comm_and_self_witness :
    Valid.nonEmptyBounds ⟨some ⟨2014, 1, 1, 0, 0, 0⟩, some ⟨2014, 12, 31, 23, 59, 59⟩⟩ = true ∧
    Valid.Intersect ⟨some ⟨2014, 1, 1, 0, 0, 0⟩, some ⟨2014, 12, 31, 23, 59, 59⟩⟩
        ⟨some ⟨2014, 1, 1, 0, 0, 0⟩, some ⟨2014, 12, 31, 23, 59, 59⟩⟩ =
      (true, ⟨some ⟨2014, 1, 1, 0, 0, 0⟩, some ⟨2014, 12, 31, 23, 59, 59⟩⟩) :=
  ⟨by decide,
   valid_intersect_comm_and_self.2
     ⟨some ⟨2014, 1, 1, 0, 0, 0⟩, some ⟨2014, 12, 31, 23, 59, 59⟩⟩ (by decide)⟩

theorem valid_sexp_eq_nil_iff (v : Valid) :
    v.Sexp = Sexp.nilSexp ↔ v.NotBefore = none ∧ v.NotAfter = none := by
  obtain ⟨nb, na⟩ := v
  cases nb <;> cases na <;> simp [Valid.Sexp]

/-- C5 counterexample: the claim says the synthesized certificate
carries a `VALID` term exactly when the `valid` field is non-none.  For
a certificate whose `valid` field is present but doubly unbounded,
`Valid.Sexp` returns nil and the term is dropped, so the encoding ends
at the tag. -/
theorem authCert_unbounded_valid_term_dropped :
    (some (Valid.mk none none) : Option Valid) ≠ none ∧
    AuthCert.Sexp (fun _ : Nat => Sexp.nilSexp)
        ⟨Sexp.nilSexp, ⟨none, []⟩, .atom "S", false, some ⟨none, none⟩, .atom "T"⟩ =
      .list [.atom "cert",
             .list [.atom "issuer", .atom "Self"],
             .list [.atom "subject", .atom "S"],
             .atom "T"] := by
  refine ⟨by simp, rfl⟩

/-- C5 (amended): `AuthCert.Sexp` returns the originally-parsed
expression unmodified when it is present; otherwise it synthesizes
`(cert (issuer ISSUER) (subject SUBJECT) [(delegate)] TAG [VALID])`,
where the delegate term is present iff the delegate flag is true, and
the `VALID` term is present iff the `valid` field is non-none AND has
at least one bound (a doubly unbounded `Valid` encodes to nil and is
omitted). -/
theorem authCert_sexp_shape :
    ∀ (Key : Type) (keySexp : Key → Sexp) (a : AuthCert Key),
      (a.Expr ≠ Sexp.nilSexp → AuthCert.Sexp keySexp a = a.Expr) ∧
      (a.Expr = Sexp.nilSexp →
        AuthCert.Sexp keySexp a = .list
          ([.atom "cert",
            .list [.atom "issuer", a.Issuer.Sexp keySexp],
            .list [.atom "subject", a.Subject]]
           ++ (if a.Delegate then [Sexp.list [.atom "delegate"]] else [])
           ++ [a.Tag]
           ++ (match a.valid with
               | none => []
               | some v =>
                   if v.NotBefore.isNone && v.NotAfter.isNone then []
                   else [v.Sexp]))) := by
  intro K keySexp a
  obtain ⟨e, iss, sub, del, val, tag⟩ := a
  cases e with
  | atom v => exact ⟨fun _ => rfl, fun h => nomatch h⟩
  | list l => exact ⟨fun _ => rfl, fun h => nomatch h⟩
  | nilSexp =>
      refine ⟨fun h => absurd rfl h, fun _ => ?_⟩
      cases del <;> rcases val with _ | ⟨nb, na⟩
      · simp [AuthCert.Sexp]
      · cases nb <;> cases na <;> simp [AuthCert.Sexp, Valid.Sexp]
      · simp [AuthCert.Sexp]
      · cases nb <;> cases na <;> simp [AuthCert.Sexp, Valid.Sexp]

/-- C5 witness: the amended theorem applied to a parsed certificate
(original expression returned verbatim) and to a synthesized
certificate with delegate set and a bounded validity. -/
theorem authCert_sexp_shape_witness :
    AuthCert.Sexp (fun _ : Nat => Sexp.nilSexp)
        ⟨.atom "E", ⟨none, []⟩, .atom "S", true, none, .atom "T"⟩ = .atom "E" ∧
    AuthCert.Sexp (fun _ : Nat => Sexp.nilSexp)
        ⟨Sexp.nilSexp, ⟨none, []⟩, .atom "S", true,
         some ⟨none, some ⟨2014, 12, 31, 23, 59, 59⟩⟩, .atom "T"⟩ =
      .list [.atom "cert",
             .list [.atom "issuer", .atom "Self"],
             .list [.atom "subject", .atom "S"],
             .list [.atom "delegate"],
             .atom "T",
             .list [.atom "valid", Sexp.nilSexp,
                    .list [.atom "not-after", .atom "2014-12-31_23:59:00"]]] := by
  constructor
  · exact (authCert_sexp_shape Nat (fun _ => Sexp.nilSexp)
      ⟨.atom "E", ⟨none, []⟩, .atom "S", true, none, .atom "T"⟩).1
      (fun h => nomatch h)
  · rw [(authCert_sexp_shape Nat (fun _ => Sexp.nilSexp)
      ⟨Sexp.nilSexp, ⟨none, []⟩, .atom "S", true,
       some ⟨none, some ⟨2014, 12, 31, 23, 59, 59⟩⟩, .atom "T"⟩).2 rfl]
    rfl

theorem namesOverlapMatch_append (pre ext : List String) :
    namesOverlapMatch pre (pre ++ ext) = true ∧
    namesOverlapMatch (pre ++ ext) pre = true := by
  induction pre with
  | nil => cases ext <;> simp [namesOverlapMatch]
  | cons a as ih => simp [namesOverlapMatch, ih.1, ih.2]

/-- C7: `Name.IsPrefix` fails when the receiver has a non-null
principal not equal (under the `Key.Equal` dispatch) to the principal
of the other name; otherwise it compares the name sequences
element-wise only over the overlap up to the shorter length, with no
requirement on the lengths — so a shorter name sequence is a prefix of
any extension of it, and the reversed direction holds as well. -/
theorem isPrefix_spec :
    ∀ (Key : Type) (keyEqual : Key → Option Key → Bool) (n n2 : Name Key),
      (∀ k, n.Principal = some k → keyEqual k n2.Principal = false →
          Name.IsPrefix keyEqual n n2 = false) ∧
      ((n.Principal = none ∨
          ∃ k, n.Principal = some k ∧ keyEqual k n2.Principal = true) →
        Name.IsPrefix keyEqual n n2 = namesOverlapMatch n.Names n2.Names) ∧
      (∀ pre ext, namesOverlapMatch pre (pre ++ ext) = true ∧
          namesOverlapMatch (pre ++ ext) pre = true) := by
  intro Key keyEqual n n2
  refine ⟨?_, ?_, fun pre ext => namesOverlapMatch_append pre ext⟩
  · intro k hk hfalse
    simp [Name.IsPrefix, hk, hfalse]
  · rintro (h | ⟨k, hk, htrue⟩) <;> simp [Name.IsPrefix, *]

/-- C7 witness: with principals equal under key equality, `["a"]` is a
prefix of `["a", "b", "c"]` and — overlap-only comparison — the
reversed direction holds too. -/
theorem isPrefix_spec_witness :
    Name.IsPrefix (fun (k : Nat) o => o == some k)
        ⟨some 1, ["a"]⟩ ⟨some 1, ["a", "b", "c"]⟩ = true ∧
    Name.IsPrefix (fun (k : Nat) o => o == some k)
        ⟨some 1, ["a", "b", "c"]⟩ ⟨some 1, ["a"]⟩ = true := by
  constructor
  · rw [(isPrefix_spec Nat (fun k o => o == some k)
        ⟨some 1, ["a"]⟩ ⟨some 1, ["a", "b", "c"]⟩).2.1
        (Or.inr ⟨1, rfl, by decide⟩)]
    decide
  · rw [(isPrefix_spec Nat (fun k o => o == some k)
        ⟨some 1, ["a", "b", "c"]⟩ ⟨some 1, ["a"]⟩).2.1
        (Or.inr ⟨1, rfl, by decide⟩)]
    decide

end Spki
